import Mathlib

/-!
Verification development for `promise-idb` (src/promise-idb.ts, class `PromiseIDB`).

The file embeds the connection/version orchestration layer as pure Lean
functions.  The platform store (IndexedDB) is an external collaborator: each
embedded operation takes the platform's response to its open requests /
object-store requests as an explicit argument (an "outcome"), and returns the
promise settlement, the cache contents and a trace of the observable actions
the code performs (open requests, close calls, cache writes, hook invocations,
event receptions, promise settlement).
-/

/-- Shallow model of a JavaScript value, as far as the claims need it:
strings, objects (ordered field lists) and `undefined`. -/
inductive Value where
  | undefinedV : Value
  | str : String → Value
  | num : Nat → Value
  | obj : List (String × Value) → Value

/-- Field lookup on a JS object literal (first matching field). -/
def objGet (fields : List (String × Value)) (k : String) : Option Value :=
  (fields.find? (fun p => p.1 == k)).map Prod.snd

/-- JS object spread followed by a computed field:
the value of the expression written in the source as
a spread of `data` with field `k` set to `v`.
Enumeration order follows JS: if `k` already occurs its position is kept,
otherwise it is appended. -/
def spreadSet (fields : List (String × Value)) (k : String) (v : Value) :
    List (String × Value) :=
  if fields.any (fun p => p.1 == k) then
    fields.map (fun p => if p.1 == k then (k, v) else p)
  else
    fields ++ [(k, v)]

/-- An index on an object store (`IDBIndex`): name and key path.
The creation options (unique / multiEntry / locale) are carried opaquely by
the platform and inspected by no claim, so they are not tracked. -/
structure Idx where
  iname : String
  ikeyPath : String
deriving DecidableEq, Repr

/-- An object store of a database: its name, its declared key path
(`createObjectStore(store, { keyPath })`) and its indexes. -/
structure Coll where
  cname : String
  ckeyPath : String
  indexes : List Idx
deriving DecidableEq, Repr

/-- An `IDBDatabase` handle as the code observes it: `db.version` and
`db.objectStoreNames` (with each store's key path and indexes). -/
structure DB where
  version : Nat
  stores : List Coll
deriving DecidableEq, Repr

/-- The `#idbDatabaseMap` cache: a name-keyed map, modelled as an
association list whose update removes any previous binding of the key
(`Map.set` semantics: at most one live binding per key). -/
abbrev Cache := List (String × DB)

/-- `Map.get`: first binding of the key. -/
def mapGet (c : Cache) (k : String) : Option DB :=
  (c.find? (fun p => p.1 == k)).map Prod.snd

/-- `Map.set`: bind `k` to `v`, dropping every previous binding of `k`. -/
def mapSet (c : Cache) (k : String) (v : DB) : Cache :=
  (k, v) :: c.filter (fun p => p.1 != k)

/-- Each key has at most one binding. -/
def keysNodupB : Cache → Bool
  | [] => true
  | (k, _) :: rest => (rest.all fun p => p.1 != k) && keysNodupB rest

/-- Rejection values produced by the embedded code. -/
inductive Err where
  | noIndexedDB : Err
  | missingName : Err
  | thrownErr : String → Err
  | eventErr : String → Err
  | noDatabase : String → Err
deriving DecidableEq, Repr

/-- Settlement of a promise: resolved with a value, rejected with an error,
or forever pending (no executor branch ever called resolve/reject). -/
inductive Settle (α : Type) where
  | resolved : α → Settle α
  | rejected : Err → Settle α
  | pending : Settle α

/-- What a data-operation promise resolves with: the orchestrator instance
(`resolve(this)`) or a plain value (what the spec claims for reads). -/
inductive OpRes where
  | orchestrator : OpRes
  | value : Value → OpRes

/-- User hooks that `openDB` can invoke. -/
inductive Hook where
  | onsuccessH : Hook
  | onerrorH : Hook
  | blockedH : Hook
deriving DecidableEq, Repr

/-- Observable actions of one embedded call, in execution order. -/
inductive Act where
  | openReq : String → Option Nat → Act
  | evtUpgrade : Act
  | evtSuccess : Act
  | evtError : Act
  | cacheSet : String → DB → Act
  | closeDB : String → DB → Act
  | hookCall : Hook → Act
  | resolveP : Act
  | rejectP : Err → Act
deriving DecidableEq, Repr

/-- First settlement recorded in a trace. -/
def settleOfActs : List Act → Settle Unit
  | [] => .pending
  | .resolveP :: _ => .resolved ()
  | .rejectP e :: _ => .rejected e
  | _ :: rest => settleOfActs rest

/-- Cache contents after replaying the cache writes of a trace. -/
def cacheAfter (init : Cache) : List Act → Cache
  | [] => init
  | .cacheSet n db :: rest => cacheAfter (mapSet init n db) rest
  | _ :: rest => cacheAfter init rest

/-- Hooks invoked along a trace, in order. -/
def hooksOf (tr : List Act) : List Hook :=
  tr.filterMap fun a => match a with
    | .hookCall h => some h
    | _ => none

/-- Some action satisfying `p` occurs strictly before the first action
satisfying `q` (and an action satisfying `q` does occur). -/
def occursBefore (p q : Act → Bool) : List Act → Bool
  | [] => false
  | a :: rest =>
    if q a then false
    else if p a then rest.any q
    else occursBefore p q rest

/-- Parameters object of the public API (`PromiseIDBParams`); optional fields
are `Option`, with `none` meaning the field is absent from the object. -/
structure PIDBParams where
  name : String
  store : String
  key : Option String := none
  keyPath : Option String := none
  version : Option Nat := none

/-- Platform response to the version-less probe open issued by
`#getIDBDatabase`: `indexedDB.open(name)` either throws synchronously,
fires its error event, or fires its success event with a handle. -/
inductive DefOpen where
  | thrownD : String → DefOpen
  | erroredD : String → DefOpen
  | succeededD : DB → DefOpen

/-- Platform response to an `indexedDB.open(name, version)` issued by
`openDB`: throw, error event, plain success, upgradeneeded followed by
success, or upgradeneeded followed by an error.  On the upgrade outcomes the
carried `DB` is the handle delivered at the `upgradeneeded` event (its
`version` is already the requested version, its stores are the pre-upgrade
stores). -/
inductive OpenOutcome where
  | thrownO : String → OpenOutcome
  | erroredO : String → OpenOutcome
  | successO : DB → OpenOutcome
  | upgradeSuccessO : DB → OpenOutcome
  | upgradeErrorO : DB → String → OpenOutcome

/-- Platform response to the object-store request dispatched by
`#callObjectStoreMethod`: success event carrying `request.result`, error
event, or a synchronous throw while setting up the transaction/request. -/
inductive ReqOutcome where
  | reqSuccess : Value → ReqOutcome
  | reqError : String → ReqOutcome
  | reqThrows : String → ReqOutcome

/-- `#getIDBDatabase(name)` as written: cached handle resolves immediately;
otherwise a probe open at the default version resolves with the handle on
success (after caching it) and resolves with `undefined` on error or throw.
The executor receives only `resolve`, and every branch calls it, so the
settlement constructed here is what the promise actually does.  Also returns
the trace of actions taken. -/
def getIDBDatabaseSettle (cache : Cache) (name : String) (o : DefOpen) :
    Settle (Option DB) × List Act :=
  match mapGet cache name with
  | some db => (.resolved (some db), [])
  | none =>
    match o with
    | .thrownD _ => (.resolved none, [])
    | .erroredD _ => (.resolved none, [.openReq name none, .evtError])
    | .succeededD db =>
        (.resolved (some db), [.openReq name none, .evtSuccess, .cacheSet name db])

/-- The value a caller sees after awaiting `#getIDBDatabase` (the promise
always resolves; `none` on both rejection-free failure paths). -/
def getIDBDatabase (cache : Cache) (name : String) (o : DefOpen) :
    Option DB × List Act :=
  match getIDBDatabaseSettle cache name o with
  | (.resolved r, acts) => (r, acts)
  | (_, acts) => (none, acts)

/-- The `PromiseIDBEventHandlers` argument of `openDB`: presence of the user
hooks, and the upgrade routine as a function on the handle (the routine
mutates the handle delivered at `upgradeneeded`). -/
structure Handlers where
  hasOnsuccess : Bool := false
  hasOnerror : Bool := false
  hasBlocked : Bool := false
  upgrade : Option (DB → DB) := none

/-- Run the upgrade routine if one was supplied (`if (upgrade) upgrade(event)`). -/
def applyUpgrade (u : Option (DB → DB)) (db : DB) : DB :=
  match u with
  | some f => f db
  | none => db

/-- Environment of one `openDB` call: whether `window.indexedDB` exists, and
the platform's response to the open request. -/
structure OpenEnv where
  hasIndexedDB : Bool := true
  outcome : OpenOutcome

/-- `openDB(params, handlers)` as written, as a trace of actions:
reject `NO_INDEXED_DB` without indexedDB; reject on a missing (empty) name;
otherwise issue `indexedDB.open(name, version)`.  On the success event the
`onsuccess` hook runs, then `#setIDBDatabase(name, db)`, then resolve.  On
the error event the call only rejects with the event (the `onerror` handler
parameter is destructured but never used in this method).  On upgradeneeded
the handle is cached via `#setIDBDatabase` and the upgrade routine runs;
because the cache stores a live reference that the routine mutates, the
cached entry is modelled as the post-upgrade handle.  A handle-level or
request-level error after upgradeneeded rejects with the event.  A
synchronous throw of `indexedDB.open` rejects with the thrown error. -/
def openDBTrace (params : PIDBParams) (h : Handlers) (env : OpenEnv) :
    List Act :=
  if env.hasIndexedDB = false then [.rejectP .noIndexedDB]
  else if params.name = "" then [.rejectP .missingName]
  else
    match env.outcome with
    | .thrownO e => [.rejectP (.thrownErr e)]
    | .erroredO e =>
        [.openReq params.name params.version, .evtError, .rejectP (.eventErr e)]
    | .successO db =>
        [.openReq params.name params.version, .evtSuccess]
          ++ (if h.hasOnsuccess then [.hookCall .onsuccessH] else [])
          ++ [.cacheSet params.name db, .resolveP]
    | .upgradeSuccessO db0 =>
        let db1 := applyUpgrade h.upgrade db0
        [.openReq params.name params.version, .evtUpgrade,
         .cacheSet params.name db1, .evtSuccess]
          ++ (if h.hasOnsuccess then [.hookCall .onsuccessH] else [])
          ++ [.cacheSet params.name db1, .resolveP]
    | .upgradeErrorO db0 e =>
        let db1 := applyUpgrade h.upgrade db0
        [.openReq params.name params.version, .evtUpgrade,
         .cacheSet params.name db1, .evtError, .rejectP (.eventErr e)]

/-- The shared version computation of the schema-mutating methods:
the source expression testing the truthiness of the resolved handle's
version, yielding `version + 1`, else `1`. -/
def nextVersionOf (dbq : Option DB) : Nat :=
  match dbq with
  | some db => if db.version = 0 then 1 else db.version + 1
  | none => 1

/-- The `nextParams` object literal of the schema-mutating methods: a
`version` field holding the computed next version, overridden by a spread of
the caller's params — so a `version` present in the caller's params wins. -/
def nextParamsOf (params : PIDBParams) (nextVersion : Nat) : PIDBParams :=
  { params with version := some (match params.version with
      | some v => v
      | none => nextVersion) }

/-- One `CreateIndexParams` entry (`indexName`, `keyPath`; creation options
are inspected by no claim and are not tracked). -/
structure CreateIndexParams where
  indexName : String
  keyPath : String

/-- The destructuring default on the key path used by `createStore` and
`put`: the given key path, or the string `id` when the field is absent. -/
def defaultKeyPath (kp : Option String) : String :=
  match kp with
  | some s => s
  | none => "id"

/-- The upgrade routine `createStore` installs: if no object store with the
requested name exists, create one with the params' key path, defaulting to
the string `id`. -/
def createStoreUpgrade (nextParams : PIDBParams) (db : DB) : DB :=
  if db.stores.any (fun c => c.cname == nextParams.store) then db
  else { db with stores :=
    db.stores ++ [⟨nextParams.store, defaultKeyPath nextParams.keyPath, []⟩] }

/-- The upgrade routine `createIndex` installs: obtain the object store from
the upgrade transaction and create each requested index on it (a single spec
is the one-element list).  When the store is absent the real code would throw
inside the routine; no claim exercises that case and the handle is then left
unchanged. -/
def createIndexUpgrade (store : String) (indexes : List CreateIndexParams)
    (db : DB) : DB :=
  { db with stores := db.stores.map fun c =>
      if c.cname == store then
        { c with indexes := c.indexes ++ indexes.map fun i => ⟨i.indexName, i.keyPath⟩ }
      else c }

/-- The upgrade routine `deleteIndex` installs: obtain the object store from
the upgrade transaction and delete the index with the given name. -/
def deleteIndexUpgrade (store : String) (indexName : String) (db : DB) : DB :=
  { db with stores := db.stores.map fun c =>
      if c.cname == store then
        { c with indexes := c.indexes.filter fun i => i.iname != indexName }
      else c }

/-- `createStore(params, eventHandlers)` as written: resolve a handle via
`#getIDBDatabase`, compute the bumped version, close the resolved handle,
then delegate to `openDB` with `nextParams` and the creation upgrade routine
spread over the caller's handlers.  `outcomeAt` is the platform's response to
an open at the given version. -/
def createStoreTrace (cache : Cache) (params : PIDBParams) (h : Handlers)
    (defOpen : DefOpen) (outcomeAt : Option Nat → OpenOutcome)
    (hasIDB : Bool) : List Act :=
  let g := getIDBDatabase cache params.name defOpen
  let nextParams := nextParamsOf params (nextVersionOf g.1)
  let closeActs := match g.1 with
    | some db => [Act.closeDB params.name db]
    | none => []
  g.2 ++ closeActs ++
    openDBTrace nextParams { h with upgrade := some (createStoreUpgrade nextParams) }
      { hasIndexedDB := hasIDB, outcome := outcomeAt nextParams.version }

/-- `createIndex(params, indexes)` as written: same prologue as
`createStore`, then `openDB` with only the index-creation upgrade routine. -/
def createIndexTrace (cache : Cache) (params : PIDBParams)
    (indexes : List CreateIndexParams) (defOpen : DefOpen)
    (outcomeAt : Option Nat → OpenOutcome) (hasIDB : Bool) : List Act :=
  let g := getIDBDatabase cache params.name defOpen
  let nextParams := nextParamsOf params (nextVersionOf g.1)
  let closeActs := match g.1 with
    | some db => [Act.closeDB params.name db]
    | none => []
  g.2 ++ closeActs ++
    openDBTrace nextParams { upgrade := some (createIndexUpgrade params.store indexes) }
      { hasIndexedDB := hasIDB, outcome := outcomeAt nextParams.version }

/-- `deleteIndex(params, indexName)` as written: same prologue, then
`openDB` with only the index-deletion upgrade routine. -/
def deleteIndexTrace (cache : Cache) (params : PIDBParams)
    (indexName : String) (defOpen : DefOpen)
    (outcomeAt : Option Nat → OpenOutcome) (hasIDB : Bool) : List Act :=
  let g := getIDBDatabase cache params.name defOpen
  let nextParams := nextParamsOf params (nextVersionOf g.1)
  let closeActs := match g.1 with
    | some db => [Act.closeDB params.name db]
    | none => []
  g.2 ++ closeActs ++
    openDBTrace nextParams { upgrade := some (deleteIndexUpgrade params.store indexName) }
      { hasIndexedDB := hasIDB, outcome := outcomeAt nextParams.version }

/-- Result of one `#callObjectStoreMethod` call: settlement of the returned
promise, whether a transaction was started, the dispatched request (method
and arguments) if one was created, and the cache afterwards. -/
structure CallResult where
  settle : Settle OpRes
  txnStarted : Bool
  dispatched : Option (String × List Value)
  cache : Cache

/-- `#callObjectStoreMethod(params, method, methodArgs)` as written: resolve
a handle; reject `No database` when absent; when the handle's
`objectStoreNames` contains the store, open a readwrite transaction and
dispatch the request, with `request.onsuccess` resolving `this` (for every
method — the event's result value is ignored) and `request.onerror`
rejecting with the event; a synchronous throw while setting up rejects with
the thrown error.  When the store is absent nothing runs and the promise
never settles. -/
def callObjectStoreMethod (cache : Cache) (params : PIDBParams)
    (method : String) (methodArgs : Option (List Value)) (defOpen : DefOpen)
    (req : ReqOutcome) : CallResult :=
  let g := getIDBDatabase cache params.name defOpen
  let cache1 := cacheAfter cache g.2
  let args := match methodArgs with
    | some a => a
    | none => []
  match g.1 with
  | none => ⟨.rejected (.noDatabase params.name), false, none, cache1⟩
  | some db =>
    if db.stores.any (fun c => c.cname == params.store) then
      match req with
      | .reqSuccess _result => ⟨.resolved .orchestrator, true, some (method, args), cache1⟩
      | .reqError e => ⟨.rejected (.eventErr e), true, some (method, args), cache1⟩
      | .reqThrows e => ⟨.rejected (.thrownErr e), true, none, cache1⟩
    else
      ⟨.pending, false, none, cache1⟩

/-- Optional key argument as the value placed in the args array
(`[value, key]` with an absent key holds `undefined`). -/
def keyArg (key : Option String) : Value :=
  match key with
  | some k => .str k
  | none => .undefinedV

/-- `add(params, value, key)`: forward to `#callObjectStoreMethod` with the
value and the key as two positional arguments — the key is not merged into
the value. -/
def addOp (cache : Cache) (params : PIDBParams) (value : Value)
    (key : Option String) (defOpen : DefOpen) (req : ReqOutcome) : CallResult :=
  callObjectStoreMethod cache params "add" (some [value, keyArg key]) defOpen req

/-- `clear(params)`: forward with `null` method args. -/
def clearOp (cache : Cache) (params : PIDBParams) (defOpen : DefOpen)
    (req : ReqOutcome) : CallResult :=
  callObjectStoreMethod cache params "clear" none defOpen req

/-- `delete(params, key)`: forward with the key as the single argument. -/
def deleteOp (cache : Cache) (params : PIDBParams) (key : String)
    (defOpen : DefOpen) (req : ReqOutcome) : CallResult :=
  callObjectStoreMethod cache params "delete" (some [.str key]) defOpen req

/-- `get(params)`: forward with `params.key` as the single argument. -/
def getOp (cache : Cache) (params : PIDBParams) (defOpen : DefOpen)
    (req : ReqOutcome) : CallResult :=
  callObjectStoreMethod cache params "get" (some [keyArg params.key]) defOpen req

/-- `put(params, data)`: build the stored document as a spread of `data`
with the field named by `params.keyPath` (default the string `id`) set to
`params.key`, and forward it as the single argument. -/
def putOp (cache : Cache) (params : PIDBParams) (data : List (String × Value))
    (defOpen : DefOpen) (req : ReqOutcome) : CallResult :=
  let methodArgs :=
    Value.obj (spreadSet data (defaultKeyPath params.keyPath) (keyArg params.key))
  callObjectStoreMethod cache params "put" (some [methodArgs]) defOpen req

/-- `getDBVersion(name)`: resolve a handle via `#getIDBDatabase` and return
its version via optional chaining; also returns the cache afterwards. -/
def getDBVersion (cache : Cache) (name : String) (o : DefOpen) :
    Option Nat × Cache :=
  let g := getIDBDatabase cache name o
  (g.1.map DB.version, cacheAfter cache g.2)

/-- Platform model of a well-behaved store whose current content is `pdb`
(external collaborator contract, spec section 6): an open without a version
succeeds with the current handle; an open at a higher version delivers the
upgrade path; an open at the current version succeeds; an open at a lower
version fires the error event. -/
def happyAt (pdb : DB) : Option Nat → OpenOutcome := fun vq =>
  match vq with
  | none => .successO pdb
  | some v =>
    if pdb.version < v then .upgradeSuccessO { pdb with version := v }
    else if pdb.version = v then .successO pdb
    else .erroredO "VersionError"

/-- Number of object stores carrying a given name. -/
def countStore (cs : List Coll) (s : String) : Nat :=
  (cs.filter (fun c => c.cname == s)).length

/-- An open request that issues a request at an explicit version
(schema re-opens; the cache probe always opens without a version). -/
def isBumpOpen (a : Act) : Bool :=
  match a with
  | .openReq _ (some _) => true
  | _ => false

/-- A `db.close()` call. -/
def isClose (a : Act) : Bool :=
  match a with
  | .closeDB _ _ => true
  | _ => false

/-- A `#setIDBDatabase` cache write. -/
def isCacheSet (a : Act) : Bool :=
  match a with
  | .cacheSet _ _ => true
  | _ => false

/-- Reception of the open request's success event. -/
def isEvtSuccess (a : Act) : Bool :=
  match a with
  | .evtSuccess => true
  | _ => false

/-- The name/version pairs of the explicit-version open requests in a trace. -/
def bumpOpens (tr : List Act) : List (String × Nat) :=
  tr.filterMap fun a => match a with
    | .openReq n (some v) => some (n, v)
    | _ => none

/-- A probe-open failure (`#getIDBDatabase` resolves `undefined`). -/
def defOpenFails (o : DefOpen) : Bool :=
  match o with
  | .succeededD _ => false
  | _ => true

/-- The open request was actually issued (the platform did not throw on the
`indexedDB.open` call itself). -/
def openIssued (o : OpenOutcome) : Bool :=
  match o with
  | .thrownO _ => false
  | _ => true

/-- Concrete fixture: a platform that answers every versioned open with the
upgrade path to a handle at version 5 with no stores. -/
def outcomeAlways5 : Option Nat → OpenOutcome :=
  fun _ => .upgradeSuccessO ⟨5, []⟩

/-- Concrete fixture: a handle at version 1 whose only collection is `s`
with key path `id`. -/
def dbNS : DB := ⟨1, [⟨"s", "id", []⟩]⟩

/-- Concrete fixture: a cache holding `dbNS` under the name `n`. -/
def cacheNS : Cache := [("n", dbNS)]

/-- Concrete fixture: params targeting name `n`, collection `s`, key `k1`. -/
def paramsNS : PIDBParams := { name := "n", store := "s", key := some "k1" }

/-- Concrete fixture: a freshly created handle at version 1 with no stores
(what a probe open leaves behind for a database that did not exist). -/
def dbTodo : DB := ⟨1, []⟩

/-- Concrete fixture: a cache holding `dbTodo` under the name `todo`. -/
def cacheTodo : Cache := [("todo", dbTodo)]

/-- Concrete fixture: params targeting name `todo`, collection `items`. -/
def paramsTodo : PIDBParams := { name := "todo", store := "items" }

section MapLemmas

theorem mapGet_mapSet_same (c : Cache) (k : String) (v : DB) :
    mapGet (mapSet c k v) k = some v := by
  simp [mapGet, mapSet, List.find?_cons]

theorem find?_filter_ne (c : Cache) (k k2 : String) (h : k2 ≠ k) :
    (c.filter (fun p => p.1 != k)).find? (fun p => p.1 == k2) =
      c.find? (fun p => p.1 == k2) := by
  induction c with
  | nil => rfl
  | cons hd tl ih =>
    rcases Bool.eq_false_or_eq_true (hd.1 == k) with hk | hk
    · have hk' : hd.1 = k := by simpa using hk
      have h2 : (hd.1 == k2) = false := by
        simp [hk']
        exact fun he => h he.symm
      have h3 : (k == k2) = false := by
        rw [← hk']
        exact h2
      simp [List.filter_cons, hk', List.find?_cons, h2, h3, ih]
    · have hk' : ¬ hd.1 = k := by simpa using hk
      rcases Bool.eq_false_or_eq_true (hd.1 == k2) with h2 | h2
      · simp [List.filter_cons, hk', List.find?_cons, h2]
      · simp [List.filter_cons, hk', List.find?_cons, h2, ih]

theorem mapGet_mapSet_ne (c : Cache) (k k2 : String) (v : DB) (h : k2 ≠ k) :
    mapGet (mapSet c k v) k2 = mapGet c k2 := by
  have h2 : (k == k2) = false := by
    simp
    exact fun he => h he.symm
  simp [mapGet, mapSet, List.find?_cons, h2, find?_filter_ne c k k2 h]

theorem filter_all_self (q : String × DB → Bool) (c : Cache) :
    (c.filter q).all q = true := by
  induction c with
  | nil => rfl
  | cons hd tl ih =>
    rcases Bool.eq_false_or_eq_true (q hd) with hq | hq
    · simp [List.filter_cons, hq, List.all_cons, ih]
    · simp [List.filter_cons, hq, ih]

theorem all_filter_of_all (p q : String × DB → Bool) (c : Cache)
    (h : c.all p = true) : (c.filter q).all p = true := by
  induction c with
  | nil => rfl
  | cons hd tl ih =>
    rw [List.all_cons, Bool.and_eq_true] at h
    rcases Bool.eq_false_or_eq_true (q hd) with hq | hq
    · simp [List.filter_cons, hq, List.all_cons, h.1, ih h.2]
    · simp [List.filter_cons, hq, ih h.2]

theorem keysNodupB_filter (q : String × DB → Bool) (c : Cache)
    (h : keysNodupB c = true) : keysNodupB (c.filter q) = true := by
  induction c with
  | nil => rfl
  | cons hd tl ih =>
    rw [show keysNodupB (hd :: tl) =
        ((tl.all fun p => p.1 != hd.1) && keysNodupB tl) from rfl,
      Bool.and_eq_true] at h
    rcases Bool.eq_false_or_eq_true (q hd) with hq | hq
    · rw [List.filter_cons, if_pos hq,
        show keysNodupB (hd :: tl.filter q) =
          (((tl.filter q).all fun p => p.1 != hd.1) && keysNodupB (tl.filter q)) from rfl,
        Bool.and_eq_true]
      exact ⟨all_filter_of_all _ q tl h.1, ih h.2⟩
    · rw [List.filter_cons, if_neg (by simp [hq])]
      exact ih h.2

theorem keysNodupB_mapSet (c : Cache) (k : String) (v : DB)
    (h : keysNodupB c = true) : keysNodupB (mapSet c k v) = true := by
  show (((c.filter fun p => p.1 != k).all fun p => p.1 != k) &&
      keysNodupB (c.filter fun p => p.1 != k)) = true
  rw [Bool.and_eq_true]
  exact ⟨filter_all_self _ c, keysNodupB_filter _ c h⟩

@[simp] theorem cacheAfter_nil (init : Cache) : cacheAfter init [] = init := rfl

@[simp] theorem cacheAfter_openReq (init : Cache) (n : String) (v : Option Nat)
    (rest : List Act) : cacheAfter init (.openReq n v :: rest) = cacheAfter init rest := rfl

@[simp] theorem cacheAfter_evtUpgrade (init : Cache) (rest : List Act) :
    cacheAfter init (.evtUpgrade :: rest) = cacheAfter init rest := rfl

@[simp] theorem cacheAfter_evtSuccess (init : Cache) (rest : List Act) :
    cacheAfter init (.evtSuccess :: rest) = cacheAfter init rest := rfl

@[simp] theorem cacheAfter_evtError (init : Cache) (rest : List Act) :
    cacheAfter init (.evtError :: rest) = cacheAfter init rest := rfl

@[simp] theorem cacheAfter_cacheSet (init : Cache) (n : String) (db : DB)
    (rest : List Act) :
    cacheAfter init (.cacheSet n db :: rest) = cacheAfter (mapSet init n db) rest := rfl

@[simp] theorem cacheAfter_closeDB (init : Cache) (n : String) (db : DB)
    (rest : List Act) : cacheAfter init (.closeDB n db :: rest) = cacheAfter init rest := rfl

@[simp] theorem cacheAfter_hookCall (init : Cache) (h : Hook) (rest : List Act) :
    cacheAfter init (.hookCall h :: rest) = cacheAfter init rest := rfl

@[simp] theorem cacheAfter_resolveP (init : Cache) (rest : List Act) :
    cacheAfter init (.resolveP :: rest) = cacheAfter init rest := rfl

@[simp] theorem cacheAfter_rejectP (init : Cache) (e : Err) (rest : List Act) :
    cacheAfter init (.rejectP e :: rest) = cacheAfter init rest := rfl

@[simp] theorem settleOfActs_nil : settleOfActs [] = .pending := rfl

@[simp] theorem settleOfActs_openReq (n : String) (v : Option Nat) (rest : List Act) :
    settleOfActs (.openReq n v :: rest) = settleOfActs rest := rfl

@[simp] theorem settleOfActs_evtUpgrade (rest : List Act) :
    settleOfActs (.evtUpgrade :: rest) = settleOfActs rest := rfl

@[simp] theorem settleOfActs_evtSuccess (rest : List Act) :
    settleOfActs (.evtSuccess :: rest) = settleOfActs rest := rfl

@[simp] theorem settleOfActs_evtError (rest : List Act) :
    settleOfActs (.evtError :: rest) = settleOfActs rest := rfl

@[simp] theorem settleOfActs_cacheSet (n : String) (db : DB) (rest : List Act) :
    settleOfActs (.cacheSet n db :: rest) = settleOfActs rest := rfl

@[simp] theorem settleOfActs_closeDB (n : String) (db : DB) (rest : List Act) :
    settleOfActs (.closeDB n db :: rest) = settleOfActs rest := rfl

@[simp] theorem settleOfActs_hookCall (h : Hook) (rest : List Act) :
    settleOfActs (.hookCall h :: rest) = settleOfActs rest := rfl

@[simp] theorem settleOfActs_resolveP (rest : List Act) :
    settleOfActs (.resolveP :: rest) = .resolved () := rfl

@[simp] theorem settleOfActs_rejectP (e : Err) (rest : List Act) :
    settleOfActs (.rejectP e :: rest) = .rejected e := rfl

theorem keysNodupB_cacheAfter (tr : List Act) (init : Cache)
    (h : keysNodupB init = true) : keysNodupB (cacheAfter init tr) = true := by
  induction tr generalizing init with
  | nil => exact h
  | cons a rest ih =>
    cases a with
    | cacheSet n db => exact ih _ (keysNodupB_mapSet _ _ _ h)
    | openReq n v => exact ih _ h
    | evtUpgrade => exact ih _ h
    | evtSuccess => exact ih _ h
    | evtError => exact ih _ h
    | closeDB n db => exact ih _ h
    | hookCall hk => exact ih _ h
    | resolveP => exact ih _ h
    | rejectP e => exact ih _ h

theorem cacheAfter_append (init : Cache) (l1 l2 : List Act) :
    cacheAfter init (l1 ++ l2) = cacheAfter (cacheAfter init l1) l2 := by
  induction l1 generalizing init with
  | nil => rfl
  | cons a rest ih =>
    cases a with
    | cacheSet n db => simp [cacheAfter, ih]
    | openReq n v => simp [cacheAfter, ih]
    | evtUpgrade => simp [cacheAfter, ih]
    | evtSuccess => simp [cacheAfter, ih]
    | evtError => simp [cacheAfter, ih]
    | closeDB n db => simp [cacheAfter, ih]
    | hookCall hk => simp [cacheAfter, ih]
    | resolveP => simp [cacheAfter, ih]
    | rejectP e => simp [cacheAfter, ih]

end MapLemmas

section ObjLemmas

theorem objGet_map_replace (fields : List (String × Value)) (k : String)
    (v : Value) (h : fields.any (fun p => p.1 == k) = true) :
    objGet (fields.map (fun p => if p.1 == k then (k, v) else p)) k = some v := by
  induction fields with
  | nil => exact absurd h (by simp)
  | cons hd tl ih =>
    rcases Bool.eq_false_or_eq_true (hd.1 == k) with hk | hk
    · have hk' : hd.1 = k := by simpa using hk
      simp [List.map_cons, hk', objGet, List.find?_cons]
    · have hk' : ¬ hd.1 = k := by simpa using hk
      rw [List.any_cons, hk, Bool.false_or] at h
      simpa [List.map_cons, hk', objGet, List.find?_cons] using ih h

theorem objGet_append_new (fields : List (String × Value)) (k : String)
    (v : Value) (h : fields.any (fun p => p.1 == k) = false) :
    objGet (fields ++ [(k, v)]) k = some v := by
  induction fields with
  | nil => simp [objGet, List.find?_cons]
  | cons hd tl ih =>
    rw [List.any_cons, Bool.or_eq_false_iff] at h
    have hk' : ¬ hd.1 = k := by simpa using h.1
    simpa [List.cons_append, objGet, List.find?_cons, hk'] using ih h.2

theorem objGet_spreadSet (fields : List (String × Value)) (k : String)
    (v : Value) : objGet (spreadSet fields k v) k = some v := by
  unfold spreadSet
  rcases Bool.eq_false_or_eq_true (fields.any (fun p => p.1 == k)) with h | h
  · rw [if_pos h]
    exact objGet_map_replace fields k v h
  · rw [if_neg (by simp [h])]
    exact objGet_append_new fields k v h

end ObjLemmas

section StoreLemmas

theorem countStore_pos_of_any (cs : List Coll) (s : String)
    (h : cs.any (fun c => c.cname == s) = true) : 0 < countStore cs s := by
  rw [List.any_eq_true] at h
  obtain ⟨x, hx, hpx⟩ := h
  exact List.length_pos_of_mem (List.mem_filter.mpr ⟨hx, hpx⟩)

theorem countStore_zero_of_not_any (cs : List Coll) (s : String)
    (h : cs.any (fun c => c.cname == s) = false) : countStore cs s = 0 := by
  unfold countStore
  rw [List.length_eq_zero, List.filter_eq_nil_iff]
  intro a ha
  rw [List.any_eq_false] at h
  exact h a ha

theorem any_of_countStore_pos (cs : List Coll) (s : String)
    (h : 0 < countStore cs s) : cs.any (fun c => c.cname == s) = true := by
  cases hb : cs.any (fun c => c.cname == s)
  · rw [countStore_zero_of_not_any cs s hb] at h
    exact absurd h (by simp)
  · rfl

theorem createStoreUpgrade_version (p : PIDBParams) (db : DB) :
    (createStoreUpgrade p db).version = db.version := by
  unfold createStoreUpgrade
  split
  · rfl
  · rfl

theorem createStoreUpgrade_any (p : PIDBParams) (db : DB) :
    (createStoreUpgrade p db).stores.any (fun c => c.cname == p.store) = true := by
  unfold createStoreUpgrade
  split
  · assumption
  · rw [show ({ db with stores :=
        db.stores ++ [⟨p.store, defaultKeyPath p.keyPath, []⟩] } : DB).stores =
        db.stores ++ [⟨p.store, defaultKeyPath p.keyPath, []⟩] from rfl]
    simp [List.any_append]

theorem createStoreUpgrade_count (p : PIDBParams) (db : DB)
    (h : countStore db.stores p.store ≤ 1) :
    countStore (createStoreUpgrade p db).stores p.store = 1 := by
  unfold createStoreUpgrade
  split
  · next hany =>
    have h1 := countStore_pos_of_any db.stores p.store hany
    omega
  · next hany =>
    have hfalse : db.stores.any (fun c => c.cname == p.store) = false := by
      cases hb : db.stores.any (fun c => c.cname == p.store)
      · rfl
      · exact absurd hb hany
    have h0 : countStore db.stores p.store = 0 :=
      countStore_zero_of_not_any db.stores p.store hfalse
    show countStore (db.stores ++ [⟨p.store, defaultKeyPath p.keyPath, []⟩]) p.store = 1
    unfold countStore at h0 ⊢
    rw [List.filter_append, List.length_append, h0]
    simp [List.filter_cons]

theorem createStoreUpgrade_noop (p : PIDBParams) (db : DB)
    (h : db.stores.any (fun c => c.cname == p.store) = true) :
    createStoreUpgrade p db = db := by
  unfold createStoreUpgrade
  rw [if_pos h]

end StoreLemmas

/-- C6: connection-cache resolution never rejects: for every store name the
resolution returns the cached handle when present (without touching the
platform), otherwise attempts a default-version open, caches the handle on
success, and resolves to absent (`undefined`) on any failure — a thrown open
as well as an error event — never propagating a failure to the caller. -/
theorem c6_resolution_never_rejects :
    (∀ cache name o, ∃ r, (getIDBDatabaseSettle cache name o).1 = .resolved r) ∧
    (∀ cache name o db, mapGet cache name = some db →
      getIDBDatabaseSettle cache name o = (.resolved (some db), [])) ∧
    (∀ cache name db, mapGet cache name = none →
      (getIDBDatabaseSettle cache name (.succeededD db)).1 = .resolved (some db) ∧
      mapGet (cacheAfter cache (getIDBDatabaseSettle cache name (.succeededD db)).2) name
        = some db) ∧
    (∀ cache name e, mapGet cache name = none →
      (getIDBDatabaseSettle cache name (.erroredD e)).1 = .resolved none ∧
      cacheAfter cache (getIDBDatabaseSettle cache name (.erroredD e)).2 = cache) ∧
    (∀ cache name e, mapGet cache name = none →
      (getIDBDatabaseSettle cache name (.thrownD e)).1 = .resolved none ∧
      cacheAfter cache (getIDBDatabaseSettle cache name (.thrownD e)).2 = cache) := by
  refine ⟨?_, ?_, ?_, ?_, ?_⟩
  · intro cache name o
    cases hm : mapGet cache name with
    | some db => exact ⟨some db, by simp [getIDBDatabaseSettle, hm]⟩
    | none =>
      cases o with
      | thrownD e => exact ⟨none, by simp [getIDBDatabaseSettle, hm]⟩
      | erroredD e => exact ⟨none, by simp [getIDBDatabaseSettle, hm]⟩
      | succeededD db => exact ⟨some db, by simp [getIDBDatabaseSettle, hm]⟩
  · intro cache name o db hm
    simp [getIDBDatabaseSettle, hm]
  · intro cache name db hm
    refine ⟨by simp [getIDBDatabaseSettle, hm], ?_⟩
    simp [getIDBDatabaseSettle, hm, mapGet_mapSet_same]
  · intro cache name e hm
    exact ⟨by simp [getIDBDatabaseSettle, hm], by simp [getIDBDatabaseSettle, hm]⟩
  · intro cache name e hm
    exact ⟨by simp [getIDBDatabaseSettle, hm], by simp [getIDBDatabaseSettle, hm]⟩

/-- Witness for C6 at concrete inputs: an empty cache with name `n`,
exercising the hypothesis-bearing conjuncts. -/
theorem c6_witness :
    mapGet [] "n" = none ∧
    ((getIDBDatabaseSettle [] "n" (.succeededD ⟨3, []⟩)).1 = .resolved (some ⟨3, []⟩) ∧
      mapGet (cacheAfter [] (getIDBDatabaseSettle [] "n" (.succeededD ⟨3, []⟩)).2) "n"
        = some ⟨3, []⟩) ∧
    ((getIDBDatabaseSettle [] "n" (.erroredD "boom")).1 = .resolved none ∧
      cacheAfter [] (getIDBDatabaseSettle [] "n" (.erroredD "boom")).2 = []) :=
  ⟨rfl, c6_resolution_never_rejects.2.2.1 [] "n" ⟨3, []⟩ rfl,
    c6_resolution_never_rejects.2.2.2.1 [] "n" "boom" rfl⟩

/-- C10: a `getDBVersion(name)` call on a name with no cached handle opens a
connection at the default version; on success it returns that handle's
version and inserts the handle into the cache, leaving every other name's
entry unchanged; it returns `undefined` exactly when that open fails, in
which case the cache is unchanged. -/
theorem c10_version_probe_caches (cache : Cache) (name : String) (o : DefOpen)
    (hmiss : mapGet cache name = none) :
    (∀ db, o = .succeededD db →
      (getDBVersion cache name o).1 = some db.version ∧
      mapGet (getDBVersion cache name o).2 name = some db ∧
      ∀ n2, n2 ≠ name → mapGet (getDBVersion cache name o).2 n2 = mapGet cache n2) ∧
    (defOpenFails o = true →
      (getDBVersion cache name o).1 = none ∧ (getDBVersion cache name o).2 = cache) ∧
    ((getDBVersion cache name o).1 = none ↔ defOpenFails o = true) := by
  refine ⟨?_, ?_, ?_⟩
  · intro db ho
    subst ho
    refine ⟨?_, ?_, ?_⟩
    · simp [getDBVersion, getIDBDatabase, getIDBDatabaseSettle, hmiss]
    · simp [getDBVersion, getIDBDatabase, getIDBDatabaseSettle, hmiss, mapGet_mapSet_same]
    · intro n2 hn2
      simp [getDBVersion, getIDBDatabase, getIDBDatabaseSettle, hmiss,
        mapGet_mapSet_ne cache name n2 db hn2]
  · intro hfail
    cases o with
    | thrownD e =>
      exact ⟨by simp [getDBVersion, getIDBDatabase, getIDBDatabaseSettle, hmiss],
        by simp [getDBVersion, getIDBDatabase, getIDBDatabaseSettle, hmiss]⟩
    | erroredD e =>
      exact ⟨by simp [getDBVersion, getIDBDatabase, getIDBDatabaseSettle, hmiss],
        by simp [getDBVersion, getIDBDatabase, getIDBDatabaseSettle, hmiss]⟩
    | succeededD db => exact absurd hfail (by simp [defOpenFails])
  · cases o with
    | thrownD e =>
      simp [getDBVersion, getIDBDatabase, getIDBDatabaseSettle, hmiss, defOpenFails]
    | erroredD e =>
      simp [getDBVersion, getIDBDatabase, getIDBDatabaseSettle, hmiss, defOpenFails]
    | succeededD db =>
      simp [getDBVersion, getIDBDatabase, getIDBDatabaseSettle, hmiss, defOpenFails]

/-- Witness for C10 at concrete inputs: empty cache, name `n`, one success
probe and one failing probe. -/
theorem c10_witness :
    mapGet [] "n" = none ∧
    (getDBVersion [] "n" (.succeededD ⟨2, []⟩)).1 = some 2 ∧
    mapGet (getDBVersion [] "n" (.succeededD ⟨2, []⟩)).2 "n" = some ⟨2, []⟩ ∧
    (getDBVersion [] "n" (.erroredD "boom")).1 = none := by
  refine ⟨rfl, ?_, ?_, ?_⟩
  · exact ((c10_version_probe_caches [] "n" (.succeededD ⟨2, []⟩) rfl).1 ⟨2, []⟩ rfl).1
  · exact ((c10_version_probe_caches [] "n" (.succeededD ⟨2, []⟩) rfl).1 ⟨2, []⟩ rfl).2.1
  · exact ((c10_version_probe_caches [] "n" (.erroredD "boom") rfl).2.1 rfl).1

/-- C3: a dispatched data operation whose resolved handle's collection set
does not contain the target collection starts no transaction and its promise
never settles — neither resolves nor rejects; no request is dispatched. -/
theorem c3_missing_store_never_settles (cache : Cache) (params : PIDBParams)
    (method : String) (methodArgs : Option (List Value)) (defOpen : DefOpen)
    (req : ReqOutcome) (db : DB)
    (hdb : (getIDBDatabase cache params.name defOpen).1 = some db)
    (hstore : db.stores.any (fun c => c.cname == params.store) = false) :
    (callObjectStoreMethod cache params method methodArgs defOpen req).settle = .pending ∧
    (callObjectStoreMethod cache params method methodArgs defOpen req).txnStarted = false ∧
    (callObjectStoreMethod cache params method methodArgs defOpen req).dispatched = none := by
  refine ⟨?_, ?_, ?_⟩ <;>
    simp [callObjectStoreMethod, hdb, hstore]

/-- Witness for C3: cached handle for `n` at version 1 whose only collection
is `s`, dispatching `get` against the absent collection `t`. -/
theorem c3_witness :
    (getIDBDatabase [("n", ⟨1, [⟨"s", "id", []⟩]⟩)] "n" (.erroredD "x")).1
      = some ⟨1, [⟨"s", "id", []⟩]⟩ ∧
    ((⟨1, [⟨"s", "id", []⟩]⟩ : DB).stores.any (fun c => c.cname == "t")) = false ∧
    (callObjectStoreMethod [("n", ⟨1, [⟨"s", "id", []⟩]⟩)]
      { name := "n", store := "t" } "get" (some [.str "k"]) (.erroredD "x")
      (.reqSuccess .undefinedV)).settle = .pending :=
  ⟨rfl, rfl,
    (c3_missing_store_never_settles [("n", ⟨1, [⟨"s", "id", []⟩]⟩)]
      { name := "n", store := "t" } "get" (some [.str "k"]) (.erroredD "x")
      (.reqSuccess .undefinedV) ⟨1, [⟨"s", "id", []⟩]⟩ rfl rfl).1⟩

/-- C1 counterexample: a `get` whose request succeeds with result value
`str "stored"` has its promise resolved with the orchestrator reference, not
with the request's result value — refuting the claim that reads resolve with
the result value. -/
theorem c1_counterexample :
    (getOp cacheNS paramsNS (.erroredD "x") (.reqSuccess (.str "stored"))).settle
      = .resolved .orchestrator ∧
    (getOp cacheNS paramsNS (.erroredD "x") (.reqSuccess (.str "stored"))).settle
      ≠ .resolved (.value (.str "stored")) := by
  refine ⟨rfl, ?_⟩
  intro h
  rw [show (getOp cacheNS paramsNS (.erroredD "x") (.reqSuccess (.str "stored"))).settle
      = Settle.resolved OpRes.orchestrator from rfl] at h
  injection h with h2
  exact OpRes.noConfusion h2

/-- C1 (amended): every dispatched data operation that completes
successfully — read (`get`) and write alike — resolves with a reference to
the orchestrator (the request's result value is ignored), and the
operation's error event rejects the promise with the platform error. -/
theorem c1_settles_with_orchestrator (cache : Cache) (params : PIDBParams)
    (method : String) (methodArgs : Option (List Value)) (defOpen : DefOpen)
    (r : Value) (e : String) (db : DB)
    (hdb : (getIDBDatabase cache params.name defOpen).1 = some db)
    (hstore : db.stores.any (fun c => c.cname == params.store) = true) :
    (callObjectStoreMethod cache params method methodArgs defOpen (.reqSuccess r)).settle
      = .resolved .orchestrator ∧
    (callObjectStoreMethod cache params method methodArgs defOpen (.reqError e)).settle
      = .rejected (.eventErr e) := by
  constructor <;> simp [callObjectStoreMethod, hdb, hstore]

/-- Witness for C1 (amended) at concrete inputs: a `put` success resolves
the orchestrator; a `put` error event rejects with the platform error. -/
theorem c1_witness :
    (getIDBDatabase cacheNS "n" (.erroredD "x")).1 = some dbNS ∧
    dbNS.stores.any (fun c => c.cname == "s") = true ∧
    (callObjectStoreMethod cacheNS paramsNS "put" (some [.obj []]) (.erroredD "x")
      (.reqSuccess .undefinedV)).settle = .resolved .orchestrator ∧
    (callObjectStoreMethod cacheNS paramsNS "put" (some [.obj []]) (.erroredD "x")
      (.reqError "bad")).settle = .rejected (.eventErr "bad") :=
  ⟨rfl, rfl,
    (c1_settles_with_orchestrator cacheNS paramsNS "put" (some [.obj []]) (.erroredD "x")
      .undefinedV "bad" dbNS rfl rfl).1,
    (c1_settles_with_orchestrator cacheNS paramsNS "put" (some [.obj []]) (.erroredD "x")
      .undefinedV "bad" dbNS rfl rfl).2⟩

/-- C4 counterexample: an `add` with value `obj [(title, str a)]` and key
`k1` dispatches the value document unmodified next to the separate key
argument — the stored document carries no field under the collection's
(default) key path `id`, refuting the claim that the key is merged into the
value for `add`. -/
theorem c4_counterexample :
    (addOp cacheNS paramsNS (.obj [("title", .str "a")]) (some "k1") (.erroredD "x")
      (.reqSuccess .undefinedV)).dispatched
      = some ("add", [.obj [("title", .str "a")], .str "k1"]) ∧
    objGet [("title", .str "a")] "id" = none := ⟨rfl, rfl⟩

/-- C4 (amended): `put` merges the caller-supplied key into the value under
the key path given in the call's params (default `id`) before dispatch, so
the stored document carries the key inline; `add` does not merge — it
forwards the value unmodified together with the key as the platform's
separate key argument. -/
theorem c4_put_merges_add_passes_key (cache : Cache) (params : PIDBParams)
    (data : List (String × Value)) (value : Value) (key : Option String)
    (defOpen : DefOpen) (r : Value) (db : DB)
    (hdb : (getIDBDatabase cache params.name defOpen).1 = some db)
    (hstore : db.stores.any (fun c => c.cname == params.store) = true) :
    (putOp cache params data defOpen (.reqSuccess r)).dispatched
      = some ("put",
        [.obj (spreadSet data (defaultKeyPath params.keyPath) (keyArg params.key))]) ∧
    objGet (spreadSet data (defaultKeyPath params.keyPath) (keyArg params.key))
      (defaultKeyPath params.keyPath) = some (keyArg params.key) ∧
    (addOp cache params value key defOpen (.reqSuccess r)).dispatched
      = some ("add", [value, keyArg key]) := by
  refine ⟨?_, objGet_spreadSet data (defaultKeyPath params.keyPath) (keyArg params.key), ?_⟩ <;>
    simp [putOp, addOp, callObjectStoreMethod, hdb, hstore]

/-- Witness for C4 (amended) at concrete inputs: a `put` of
`obj [(title, str a)]` with key `k1` dispatches the document with `id`
mapped to `k1`; the matching `add` leaves the document untouched. -/
theorem c4_witness :
    (getIDBDatabase cacheNS "n" (.erroredD "x")).1 = some dbNS ∧
    dbNS.stores.any (fun c => c.cname == "s") = true ∧
    (putOp cacheNS paramsNS [("title", .str "a")] (.erroredD "x")
      (.reqSuccess .undefinedV)).dispatched
      = some ("put", [.obj [("title", .str "a"), ("id", .str "k1")]]) ∧
    objGet [("title", .str "a"), ("id", .str "k1")] "id" = some (.str "k1") ∧
    (addOp cacheNS paramsNS (.obj [("title", .str "a")]) (some "k2") (.erroredD "x")
      (.reqSuccess .undefinedV)).dispatched
      = some ("add", [.obj [("title", .str "a")], .str "k2"]) := by
  have h := c4_put_merges_add_passes_key cacheNS paramsNS [("title", .str "a")]
    (.obj [("title", .str "a")]) (some "k2") (.erroredD "x") .undefinedV dbNS rfl rfl
  exact ⟨rfl, rfl, h.1, h.2.1, h.2.2⟩

/-- C7 counterexample: an `openDB` call with a user `onerror` hook supplied
whose open request fires the error event rejects the promise but invokes no
hook at all — refuting the claim that the supplied `onerror` hook is
invoked. -/
theorem c7_counterexample :
    settleOfActs (openDBTrace { name := "n", store := "s" }
      { hasOnerror := true } { outcome := .erroredO "boom" })
      = .rejected (.eventErr "boom") ∧
    hooksOf (openDBTrace { name := "n", store := "s" }
      { hasOnerror := true } { outcome := .erroredO "boom" }) = [] := ⟨rfl, rfl⟩

/-- C7 (amended): when the open request fires the platform error event the
returned promise rejects with the underlying error, and no user hook — in
particular not the supplied `onerror` hook — is invoked. -/
theorem c7_open_error_rejects_without_hook (params : PIDBParams) (h : Handlers)
    (env : OpenEnv) (e : String)
    (hidb : env.hasIndexedDB = true) (hname : params.name ≠ "")
    (hout : env.outcome = .erroredO e) :
    settleOfActs (openDBTrace params h env) = .rejected (.eventErr e) ∧
    hooksOf (openDBTrace params h env) = [] := by
  constructor <;> simp [openDBTrace, hidb, hname, hout, hooksOf]

/-- Witness for C7 (amended) at concrete inputs. -/
theorem c7_witness :
    ({ outcome := .erroredO "fail", hasIndexedDB := true } : OpenEnv).hasIndexedDB = true ∧
    ("m" : String) ≠ "" ∧
    settleOfActs (openDBTrace { name := "m", store := "t" } { hasOnerror := true }
      { outcome := .erroredO "fail" }) = .rejected (.eventErr "fail") ∧
    hooksOf (openDBTrace { name := "m", store := "t" } { hasOnerror := true }
      { outcome := .erroredO "fail" }) = [] := by
  have h := c7_open_error_rejects_without_hook { name := "m", store := "t" }
    { hasOnerror := true } { outcome := .erroredO "fail" } "fail" rfl
    (by decide) rfl
  exact ⟨rfl, by decide, h.1, h.2⟩

section TraceLemmas

theorem createStoreTrace_eq (cache : Cache) (params : PIDBParams) (h : Handlers)
    (defOpen : DefOpen) (outcomeAt : Option Nat → OpenOutcome) (hasIDB : Bool) :
    createStoreTrace cache params h defOpen outcomeAt hasIDB =
      (getIDBDatabase cache params.name defOpen).2
      ++ (match (getIDBDatabase cache params.name defOpen).1 with
          | some db => [Act.closeDB params.name db]
          | none => [])
      ++ openDBTrace
          (nextParamsOf params (nextVersionOf (getIDBDatabase cache params.name defOpen).1))
          { h with upgrade := some (createStoreUpgrade
              (nextParamsOf params (nextVersionOf (getIDBDatabase cache params.name defOpen).1))) }
          { hasIndexedDB := hasIDB,
            outcome := outcomeAt
              (nextParamsOf params (nextVersionOf (getIDBDatabase cache params.name defOpen).1)).version } :=
  rfl

theorem createIndexTrace_eq (cache : Cache) (params : PIDBParams)
    (indexes : List CreateIndexParams) (defOpen : DefOpen)
    (outcomeAt : Option Nat → OpenOutcome) (hasIDB : Bool) :
    createIndexTrace cache params indexes defOpen outcomeAt hasIDB =
      (getIDBDatabase cache params.name defOpen).2
      ++ (match (getIDBDatabase cache params.name defOpen).1 with
          | some db => [Act.closeDB params.name db]
          | none => [])
      ++ openDBTrace
          (nextParamsOf params (nextVersionOf (getIDBDatabase cache params.name defOpen).1))
          { upgrade := some (createIndexUpgrade params.store indexes) }
          { hasIndexedDB := hasIDB,
            outcome := outcomeAt
              (nextParamsOf params (nextVersionOf (getIDBDatabase cache params.name defOpen).1)).version } :=
  rfl

theorem deleteIndexTrace_eq (cache : Cache) (params : PIDBParams)
    (indexName : String) (defOpen : DefOpen)
    (outcomeAt : Option Nat → OpenOutcome) (hasIDB : Bool) :
    deleteIndexTrace cache params indexName defOpen outcomeAt hasIDB =
      (getIDBDatabase cache params.name defOpen).2
      ++ (match (getIDBDatabase cache params.name defOpen).1 with
          | some db => [Act.closeDB params.name db]
          | none => [])
      ++ openDBTrace
          (nextParamsOf params (nextVersionOf (getIDBDatabase cache params.name defOpen).1))
          { upgrade := some (deleteIndexUpgrade params.store indexName) }
          { hasIndexedDB := hasIDB,
            outcome := outcomeAt
              (nextParamsOf params (nextVersionOf (getIDBDatabase cache params.name defOpen).1)).version } :=
  rfl

theorem nextParamsOf_version_none (params : PIDBParams) (nv : Nat)
    (hv : params.version = none) :
    (nextParamsOf params nv).version = some nv := by
  simp [nextParamsOf, hv]

theorem bumpOpens_append (l1 l2 : List Act) :
    bumpOpens (l1 ++ l2) = bumpOpens l1 ++ bumpOpens l2 :=
  List.filterMap_append l1 l2 _

theorem bumpOpens_probe (cache : Cache) (name : String) (o : DefOpen) :
    bumpOpens (getIDBDatabase cache name o).2 = [] := by
  cases hm : mapGet cache name with
  | some db => simp [getIDBDatabase, getIDBDatabaseSettle, hm, bumpOpens]
  | none =>
    cases o <;> simp [getIDBDatabase, getIDBDatabaseSettle, hm, bumpOpens]

theorem probe_all_skip (cache : Cache) (name : String) (o : DefOpen) :
    ((getIDBDatabase cache name o).2).all
      (fun a => !(isClose a) && !(isBumpOpen a)) = true := by
  cases hm : mapGet cache name with
  | some db => simp [getIDBDatabase, getIDBDatabaseSettle, hm]
  | none =>
    cases o <;>
      simp [getIDBDatabase, getIDBDatabaseSettle, hm, isClose, isBumpOpen]

theorem bumpOpens_openDBTrace (p : PIDBParams) (h : Handlers) (env : OpenEnv)
    (V : Nat) (hidb : env.hasIndexedDB = true) (hname : p.name ≠ "")
    (hv : p.version = some V) (hiss : openIssued env.outcome = true) :
    bumpOpens (openDBTrace p h env) = [(p.name, V)] := by
  cases hout : env.outcome with
  | thrownO e =>
    rw [hout] at hiss
    exact absurd hiss (by simp [openIssued])
  | erroredO e => simp [openDBTrace, hidb, hname, hout, bumpOpens, hv]
  | successO db =>
    rcases Bool.eq_false_or_eq_true h.hasOnsuccess with hh | hh <;>
      simp [openDBTrace, hidb, hname, hout, hh, bumpOpens, hv]
  | upgradeSuccessO db =>
    rcases Bool.eq_false_or_eq_true h.hasOnsuccess with hh | hh <;>
      simp [openDBTrace, hidb, hname, hout, hh, bumpOpens, hv]
  | upgradeErrorO db e => simp [openDBTrace, hidb, hname, hout, bumpOpens, hv]

theorem any_isBumpOpen_openDBTrace (p : PIDBParams) (h : Handlers)
    (env : OpenEnv) (V : Nat) (hidb : env.hasIndexedDB = true)
    (hname : p.name ≠ "") (hv : p.version = some V)
    (hiss : openIssued env.outcome = true) :
    (openDBTrace p h env).any isBumpOpen = true := by
  cases hout : env.outcome with
  | thrownO e =>
    rw [hout] at hiss
    exact absurd hiss (by simp [openIssued])
  | erroredO e => simp [openDBTrace, hidb, hname, hout, isBumpOpen, hv, List.any_cons]
  | successO db => simp [openDBTrace, hidb, hname, hout, isBumpOpen, hv, List.any_cons]
  | upgradeSuccessO db => simp [openDBTrace, hidb, hname, hout, isBumpOpen, hv, List.any_cons]
  | upgradeErrorO db e => simp [openDBTrace, hidb, hname, hout, isBumpOpen, hv, List.any_cons]

theorem occursBefore_skip (p q : Act → Bool) (l tr : List Act)
    (hl : l.all (fun a => !(p a) && !(q a)) = true) :
    occursBefore p q (l ++ tr) = occursBefore p q tr := by
  induction l with
  | nil => rfl
  | cons a rest ih =>
    simp only [List.all_cons, Bool.and_eq_true, Bool.not_eq_true'] at hl
    obtain ⟨⟨hpa, hqa⟩, hrest⟩ := hl
    rw [List.cons_append]
    simp only [occursBefore, hpa, hqa]
    exact ih (by
      simp only [List.all_eq_true, Bool.and_eq_true, Bool.not_eq_true']
      intro a2 ha2
      have := List.all_eq_true.mp hrest a2 ha2
      simpa [Bool.and_eq_true, Bool.not_eq_true'] using this)

theorem occursBefore_close_pattern (probe openTr : List Act) (n : String)
    (db : DB)
    (hp : probe.all (fun a => !(isClose a) && !(isBumpOpen a)) = true)
    (ha : openTr.any isBumpOpen = true) :
    occursBefore isClose isBumpOpen (probe ++ [Act.closeDB n db] ++ openTr) = true := by
  rw [List.append_assoc, occursBefore_skip _ _ _ _ hp, List.singleton_append]
  simp only [occursBefore, isClose, isBumpOpen]
  exact ha

theorem bumpOpens_schema (cache : Cache) (params : PIDBParams) (hs : Handlers)
    (defOpen : DefOpen) (outcomeAt : Option Nat → OpenOutcome)
    (hv : params.version = none) (hname : params.name ≠ "")
    (hiss : ∀ v, openIssued (outcomeAt v) = true) :
    bumpOpens ((getIDBDatabase cache params.name defOpen).2
      ++ (match (getIDBDatabase cache params.name defOpen).1 with
          | some db => [Act.closeDB params.name db]
          | none => [])
      ++ openDBTrace
          (nextParamsOf params (nextVersionOf (getIDBDatabase cache params.name defOpen).1)) hs
          { hasIndexedDB := true,
            outcome := outcomeAt
              (nextParamsOf params (nextVersionOf (getIDBDatabase cache params.name defOpen).1)).version })
      = [(params.name, nextVersionOf (getIDBDatabase cache params.name defOpen).1)] := by
  rw [bumpOpens_append, bumpOpens_append, bumpOpens_probe]
  rw [bumpOpens_openDBTrace
    (nextParamsOf params (nextVersionOf (getIDBDatabase cache params.name defOpen).1)) hs
    { hasIndexedDB := true,
      outcome := outcomeAt
        (nextParamsOf params (nextVersionOf (getIDBDatabase cache params.name defOpen).1)).version }
    (nextVersionOf (getIDBDatabase cache params.name defOpen).1)
    rfl hname (nextParamsOf_version_none params _ hv) (hiss _)]
  cases hdbq : (getIDBDatabase cache params.name defOpen).1 <;>
    simp [bumpOpens, nextParamsOf]

theorem occursBefore_schema (cache : Cache) (params : PIDBParams) (hs : Handlers)
    (defOpen : DefOpen) (outcomeAt : Option Nat → OpenOutcome) (db : DB)
    (hv : params.version = none) (hname : params.name ≠ "")
    (hiss : ∀ v, openIssued (outcomeAt v) = true)
    (hdbq : (getIDBDatabase cache params.name defOpen).1 = some db) :
    occursBefore isClose isBumpOpen
      ((getIDBDatabase cache params.name defOpen).2
        ++ (match (getIDBDatabase cache params.name defOpen).1 with
            | some db2 => [Act.closeDB params.name db2]
            | none => [])
        ++ openDBTrace
            (nextParamsOf params (nextVersionOf (getIDBDatabase cache params.name defOpen).1)) hs
            { hasIndexedDB := true,
              outcome := outcomeAt
                (nextParamsOf params (nextVersionOf (getIDBDatabase cache params.name defOpen).1)).version })
      = true := by
  rw [hdbq]
  exact occursBefore_close_pattern _ _ params.name db
    (probe_all_skip cache params.name defOpen)
    (any_isBumpOpen_openDBTrace (nextParamsOf params (nextVersionOf (some db))) hs
      { hasIndexedDB := true,
        outcome := outcomeAt (nextParamsOf params (nextVersionOf (some db))).version }
      (nextVersionOf (some db)) rfl hname (nextParamsOf_version_none params _ hv) (hiss _))

end TraceLemmas

/-- C2 counterexample: a `createStore` call whose params carry an explicit
`version: 5` while the cached handle for `n` sits at version 1 issues its
re-open at version 5, not at the cached version plus one (which would be 2):
the object spread in `nextParams` lets a caller-supplied version override the
computed bump. -/
theorem c2_counterexample :
    bumpOpens (createStoreTrace cacheNS
      { name := "n", store := "s", version := some 5 } {} (.erroredD "x")
      outcomeAlways5 true) = [("n", 5)] ∧
    nextVersionOf (getIDBDatabase cacheNS "n" (.erroredD "x")).1 = 2 ∧
    (5 : Nat) ≠ 2 := ⟨rfl, rfl, by decide⟩

/-- C2 (amended): for every schema-mutating call (create collection, create
index, delete index) whose params do not carry an explicit version, the
re-open is issued exactly once, at the resolved handle's version plus 1 (1
when no handle resolves), and when a handle did resolve it is closed before
that re-open is issued.  A version present in the caller's params overrides
the computed bump. -/
theorem c2_schema_version_bump (cache : Cache) (params : PIDBParams)
    (h : Handlers) (indexes : List CreateIndexParams) (indexName : String)
    (defOpen : DefOpen) (outcomeAt : Option Nat → OpenOutcome)
    (hv : params.version = none) (hname : params.name ≠ "")
    (hiss : ∀ v, openIssued (outcomeAt v) = true) :
    (bumpOpens (createStoreTrace cache params h defOpen outcomeAt true)
        = [(params.name, nextVersionOf (getIDBDatabase cache params.name defOpen).1)] ∧
      (∀ db, (getIDBDatabase cache params.name defOpen).1 = some db →
        occursBefore isClose isBumpOpen
          (createStoreTrace cache params h defOpen outcomeAt true) = true)) ∧
    (bumpOpens (createIndexTrace cache params indexes defOpen outcomeAt true)
        = [(params.name, nextVersionOf (getIDBDatabase cache params.name defOpen).1)] ∧
      (∀ db, (getIDBDatabase cache params.name defOpen).1 = some db →
        occursBefore isClose isBumpOpen
          (createIndexTrace cache params indexes defOpen outcomeAt true) = true)) ∧
    (bumpOpens (deleteIndexTrace cache params indexName defOpen outcomeAt true)
        = [(params.name, nextVersionOf (getIDBDatabase cache params.name defOpen).1)] ∧
      (∀ db, (getIDBDatabase cache params.name defOpen).1 = some db →
        occursBefore isClose isBumpOpen
          (deleteIndexTrace cache params indexName defOpen outcomeAt true) = true)) := by
  refine ⟨⟨?_, ?_⟩, ⟨?_, ?_⟩, ⟨?_, ?_⟩⟩
  · rw [createStoreTrace_eq]
    exact bumpOpens_schema cache params _ defOpen outcomeAt hv hname hiss
  · intro db hdbq
    rw [createStoreTrace_eq]
    exact occursBefore_schema cache params _ defOpen outcomeAt db hv hname hiss hdbq
  · rw [createIndexTrace_eq]
    exact bumpOpens_schema cache params _ defOpen outcomeAt hv hname hiss
  · intro db hdbq
    rw [createIndexTrace_eq]
    exact occursBefore_schema cache params _ defOpen outcomeAt db hv hname hiss hdbq
  · rw [deleteIndexTrace_eq]
    exact bumpOpens_schema cache params _ defOpen outcomeAt hv hname hiss
  · intro db hdbq
    rw [deleteIndexTrace_eq]
    exact occursBefore_schema cache params _ defOpen outcomeAt db hv hname hiss hdbq

/-- Witness for C2 (amended) at concrete inputs: name `n` cached at version
1, params without a version — the single re-open is issued at version 2, and
the close precedes it. -/
theorem c2_witness :
    paramsNS.version = none ∧
    ("n" : String) ≠ "" ∧
    bumpOpens (createStoreTrace cacheNS paramsNS {} (.erroredD "x") outcomeAlways5 true)
      = [("n", nextVersionOf (getIDBDatabase cacheNS "n" (.erroredD "x")).1)] ∧
    occursBefore isClose isBumpOpen
      (createStoreTrace cacheNS paramsNS {} (.erroredD "x") outcomeAlways5 true) = true := by
  have h := c2_schema_version_bump cacheNS paramsNS {} [] "i" (.erroredD "x")
    outcomeAlways5 rfl (by decide) (fun v => rfl)
  exact ⟨rfl, by decide, h.1.1, h.1.2 dbNS rfl⟩

/-- C5 counterexample: with `n` cached from a successful open at version 1,
an upgrade open at version 2 whose error event fires after `upgradeneeded`
leaves the promise rejected while the cache already holds the new handle at
version 2 — so the cached entry's version does not equal the version used
for the most recent successful open (which was 1). -/
theorem c5_counterexample :
    settleOfActs (openDBTrace { name := "n", store := "s", version := some 2 } {}
        { outcome := .upgradeErrorO ⟨2, [⟨"s", "id", []⟩]⟩ "abort" })
      = .rejected (.eventErr "abort") ∧
    (mapGet (cacheAfter cacheNS (openDBTrace { name := "n", store := "s", version := some 2 } {}
        { outcome := .upgradeErrorO ⟨2, [⟨"s", "id", []⟩]⟩ "abort" })) "n").map DB.version
      = some 2 ∧
    (mapGet cacheNS "n").map DB.version = some 1 := ⟨rfl, rfl, rfl⟩

/-- C5 (amended): the cache keeps at most one handle per store name (for any
trace of operations), and every successful open — plain or upgrade — leaves
the cached entry for its name at the version used for that open: on the
upgrade path the cached entry is the handle the upgrade routine mutated,
whose `version` the platform keeps read-only (stated as a
version-preservation hypothesis on the routine and discharged for every
upgrade routine this code installs), and that handle is cached before the
open's success event fires; however, a failed upgrade open also leaves its
(failed) handle cached, so after a rejected upgrade the cached version can
exceed the version of the most recent successful open. -/
theorem c5_cache_invariant :
    (∀ (c : Cache) (n : String) (db : DB),
      keysNodupB c = true → keysNodupB (mapSet c n db) = true) ∧
    (∀ (init : Cache) (tr : List Act),
      keysNodupB init = true → keysNodupB (cacheAfter init tr) = true) ∧
    (∀ (init : Cache) (params : PIDBParams) (h : Handlers) (env : OpenEnv)
        (db : DB) (v : Nat),
      env.hasIndexedDB = true → params.name ≠ "" → params.version = some v →
      db.version = v → env.outcome = .successO db →
      settleOfActs (openDBTrace params h env) = .resolved () ∧
      (mapGet (cacheAfter init (openDBTrace params h env)) params.name).map DB.version
        = some v) ∧
    (∀ (init : Cache) (params : PIDBParams) (h : Handlers) (env : OpenEnv)
        (db0 : DB) (v : Nat),
      env.hasIndexedDB = true → params.name ≠ "" → params.version = some v →
      db0.version = v → (applyUpgrade h.upgrade db0).version = db0.version →
      env.outcome = .upgradeSuccessO db0 →
      settleOfActs (openDBTrace params h env) = .resolved () ∧
      (mapGet (cacheAfter init (openDBTrace params h env)) params.name).map DB.version
        = some v) ∧
    ((∀ (p : PIDBParams) (db : DB), (createStoreUpgrade p db).version = db.version) ∧
      (∀ (s : String) (idxs : List CreateIndexParams) (db : DB),
        (createIndexUpgrade s idxs db).version = db.version) ∧
      (∀ (s i : String) (db : DB),
        (deleteIndexUpgrade s i db).version = db.version)) ∧
    (∀ (params : PIDBParams) (h : Handlers) (env : OpenEnv) (db0 : DB),
      env.hasIndexedDB = true → params.name ≠ "" →
      env.outcome = .upgradeSuccessO db0 →
      occursBefore isCacheSet isEvtSuccess (openDBTrace params h env) = true) := by
  refine ⟨keysNodupB_mapSet, ?_, ?_, ?_, ⟨createStoreUpgrade_version,
    fun s idxs db => rfl, fun s i db => rfl⟩, ?_⟩
  · intro init tr h
    exact keysNodupB_cacheAfter tr init h
  · intro init params h env db v hidb hname hv hdbv hout
    rcases Bool.eq_false_or_eq_true h.hasOnsuccess with hh | hh <;>
      constructor <;>
        simp [openDBTrace, hidb, hname, hout, hh, mapGet_mapSet_same, hdbv]
  · intro init params h env db0 v hidb hname hv hdbv hpres hout
    rcases Bool.eq_false_or_eq_true h.hasOnsuccess with hh | hh <;>
      constructor <;>
        simp [openDBTrace, hidb, hname, hout, hh, mapGet_mapSet_same, hpres, hdbv]
  · intro params h env db0 hidb hname hout
    simp [openDBTrace, hidb, hname, hout, occursBefore, isCacheSet, isEvtSuccess,
      List.any_cons]

/-- Witness for C5 (amended) at concrete inputs: a plain success open at
version 3, and an upgrade open at version 2 whose routine creates the
collection `s` — the cache ends at the open's version in both cases. -/
theorem c5_witness :
    keysNodupB cacheNS = true ∧
    keysNodupB (mapSet cacheNS "m" ⟨4, []⟩) = true ∧
    (settleOfActs (openDBTrace { name := "n", store := "s", version := some 3 } {}
        { outcome := .successO ⟨3, []⟩ }) = .resolved () ∧
      (mapGet (cacheAfter cacheNS (openDBTrace { name := "n", store := "s", version := some 3 } {}
        { outcome := .successO ⟨3, []⟩ })) "n").map DB.version = some 3) ∧
    ((applyUpgrade (some (createStoreUpgrade paramsNS)) ⟨2, []⟩).version
        = (⟨2, []⟩ : DB).version ∧
      settleOfActs (openDBTrace { name := "n", store := "s", version := some 2 }
        { upgrade := some (createStoreUpgrade paramsNS) }
        { outcome := .upgradeSuccessO ⟨2, []⟩ }) = .resolved () ∧
      (mapGet (cacheAfter cacheNS (openDBTrace { name := "n", store := "s", version := some 2 }
        { upgrade := some (createStoreUpgrade paramsNS) }
        { outcome := .upgradeSuccessO ⟨2, []⟩ })) "n").map DB.version = some 2) ∧
    occursBefore isCacheSet isEvtSuccess
      (openDBTrace { name := "n", store := "s", version := some 2 } {}
        { outcome := .upgradeSuccessO ⟨2, []⟩ }) = true :=
  ⟨rfl, c5_cache_invariant.1 cacheNS "m" ⟨4, []⟩ rfl,
    c5_cache_invariant.2.2.1 cacheNS { name := "n", store := "s", version := some 3 } {}
      { outcome := .successO ⟨3, []⟩ } ⟨3, []⟩ 3 rfl (by decide) rfl rfl rfl,
    ⟨by decide,
      c5_cache_invariant.2.2.2.1 cacheNS { name := "n", store := "s", version := some 2 }
        { upgrade := some (createStoreUpgrade paramsNS) }
        { outcome := .upgradeSuccessO ⟨2, []⟩ } ⟨2, []⟩ 2 rfl (by decide) rfl rfl
        (by decide) rfl⟩,
    c5_cache_invariant.2.2.2.2.2 { name := "n", store := "s", version := some 2 } {}
      { outcome := .upgradeSuccessO ⟨2, []⟩ } ⟨2, []⟩ rfl (by decide) rfl⟩

/-- C9: a `createStore` whose params omit `keyPath` creates the new
collection (when absent) with key path the string `id`, and a `put` whose
params omit `keyPath` inlines the key into the value document under the
field `id`. -/
theorem c9_default_keypath_id (p : PIDBParams) (db : DB) (cache : Cache)
    (data : List (String × Value)) (defOpen : DefOpen) (r : Value) (dbh : DB)
    (hkp : p.keyPath = none)
    (habsent : db.stores.any (fun c => c.cname == p.store) = false)
    (hdb : (getIDBDatabase cache p.name defOpen).1 = some dbh)
    (hstore : dbh.stores.any (fun c => c.cname == p.store) = true) :
    createStoreUpgrade p db
      = { db with stores := db.stores ++ [⟨p.store, "id", []⟩] } ∧
    (putOp cache p data defOpen (.reqSuccess r)).dispatched
      = some ("put", [.obj (spreadSet data "id" (keyArg p.key))]) ∧
    objGet (spreadSet data "id" (keyArg p.key)) "id" = some (keyArg p.key) := by
  refine ⟨?_, ?_, objGet_spreadSet data "id" (keyArg p.key)⟩
  · unfold createStoreUpgrade
    rw [if_neg (by simp [habsent]), hkp]
    rfl
  · simp [putOp, callObjectStoreMethod, hdb, hstore, hkp, defaultKeyPath]

/-- Witness for C9 at concrete inputs: creating collection `t` on a handle
that lacks it yields key path `id`; a `put` of `obj [(title, str a)]` with
key `k1` dispatches the document with field `id` set to `k1`. -/
theorem c9_witness :
    paramsNS.keyPath = none ∧
    ((⟨7, []⟩ : DB).stores.any (fun c => c.cname == "s")) = false ∧
    createStoreUpgrade paramsNS ⟨7, []⟩ = ⟨7, [⟨"s", "id", []⟩]⟩ ∧
    (putOp cacheNS paramsNS [("title", .str "a")] (.erroredD "x")
      (.reqSuccess .undefinedV)).dispatched
      = some ("put", [.obj [("title", .str "a"), ("id", .str "k1")]]) ∧
    objGet [("title", .str "a"), ("id", .str "k1")] "id" = some (.str "k1") := by
  have h := c9_default_keypath_id paramsNS ⟨7, []⟩ cacheNS [("title", .str "a")]
    (.erroredD "x") .undefinedV dbNS rfl rfl rfl rfl
  exact ⟨rfl, rfl, h.1, h.2.1, h.2.2⟩

section CreateStoreRun

theorem createStore_cached_happy (cache : Cache) (params : PIDBParams)
    (hs : Handlers) (dflt : DefOpen) (db : DB)
    (hname : params.name ≠ "") (hv : params.version = none)
    (hc : mapGet cache params.name = some db) (h0 : db.version ≠ 0) :
    cacheAfter cache (createStoreTrace cache params hs dflt (happyAt db) true)
      = mapSet (mapSet cache params.name
          (createStoreUpgrade (nextParamsOf params (db.version + 1))
            { db with version := db.version + 1 }))
        params.name
        (createStoreUpgrade (nextParamsOf params (db.version + 1))
          { db with version := db.version + 1 }) ∧
    settleOfActs (createStoreTrace cache params hs dflt (happyAt db) true)
      = .resolved () := by
  have hg : getIDBDatabase cache params.name dflt = (some db, []) := by
    simp [getIDBDatabase, getIDBDatabaseSettle, hc]
  have hnv : nextVersionOf (some db) = db.version + 1 := by
    simp [nextVersionOf, h0]
  have hhout : happyAt db (some (db.version + 1))
      = .upgradeSuccessO { db with version := db.version + 1 } := by
    simp [happyAt, Nat.lt_succ_self]
  constructor <;>
    rcases Bool.eq_false_or_eq_true hs.hasOnsuccess with hh | hh <;>
      simp [createStoreTrace_eq, hg, hnv, nextParamsOf, hv, openDBTrace, hname,
        hh, hhout, applyUpgrade]

end CreateStoreRun

/-- C8: collection creation is idempotent up to versioning.  Starting from a
resolved handle `db0` for the name (with at most one collection of the target
name, as every reachable handle has) and a well-behaved platform, two
consecutive awaited `createStore` calls with the same params yield a final
handle with exactly one collection of that name; the version rises by exactly
1 on the first call, and the second call's upgrade routine creates nothing —
the collection list is unchanged — while the version rises by 1 again. -/
theorem c8_idempotent_store_creation (cache0 : Cache) (params : PIDBParams)
    (hs : Handlers) (dflt : DefOpen) (db0 : DB)
    (hname : params.name ≠ "") (hv : params.version = none)
    (hc : mapGet cache0 params.name = some db0) (h0 : db0.version ≠ 0)
    (hcount : countStore db0.stores params.store ≤ 1) :
    ∃ db1 db2,
      mapGet (cacheAfter cache0
          (createStoreTrace cache0 params hs dflt (happyAt db0) true)) params.name
        = some db1 ∧
      settleOfActs (createStoreTrace cache0 params hs dflt (happyAt db0) true)
        = .resolved () ∧
      db1.version = db0.version + 1 ∧
      countStore db1.stores params.store = 1 ∧
      mapGet (cacheAfter
          (cacheAfter cache0 (createStoreTrace cache0 params hs dflt (happyAt db0) true))
          (createStoreTrace
            (cacheAfter cache0 (createStoreTrace cache0 params hs dflt (happyAt db0) true))
            params hs dflt (happyAt db1) true)) params.name
        = some db2 ∧
      settleOfActs (createStoreTrace
          (cacheAfter cache0 (createStoreTrace cache0 params hs dflt (happyAt db0) true))
          params hs dflt (happyAt db1) true)
        = .resolved () ∧
      db2.version = db0.version + 2 ∧
      db2.stores = db1.stores ∧
      countStore db2.stores params.store = 1 := by
  obtain ⟨hcache1, hsettle1⟩ :=
    createStore_cached_happy cache0 params hs dflt db0 hname hv hc h0
  have hc1 : mapGet (cacheAfter cache0
      (createStoreTrace cache0 params hs dflt (happyAt db0) true)) params.name
      = some (createStoreUpgrade (nextParamsOf params (db0.version + 1))
        { db0 with version := db0.version + 1 }) := by
    rw [hcache1]
    exact mapGet_mapSet_same _ _ _
  have hver1 : (createStoreUpgrade (nextParamsOf params (db0.version + 1))
      { db0 with version := db0.version + 1 }).version = db0.version + 1 := by
    rw [createStoreUpgrade_version]
  have h01 : (createStoreUpgrade (nextParamsOf params (db0.version + 1))
      { db0 with version := db0.version + 1 }).version ≠ 0 := by
    rw [hver1]
    exact Nat.succ_ne_zero _
  obtain ⟨hcache2, hsettle2⟩ := createStore_cached_happy
    (cacheAfter cache0 (createStoreTrace cache0 params hs dflt (happyAt db0) true))
    params hs dflt
    (createStoreUpgrade (nextParamsOf params (db0.version + 1))
      { db0 with version := db0.version + 1 })
    hname hv hc1 h01
  have hnoop : createStoreUpgrade
      (nextParamsOf params
        ((createStoreUpgrade (nextParamsOf params (db0.version + 1))
          { db0 with version := db0.version + 1 }).version + 1))
      { createStoreUpgrade (nextParamsOf params (db0.version + 1))
          { db0 with version := db0.version + 1 } with
        version := (createStoreUpgrade (nextParamsOf params (db0.version + 1))
          { db0 with version := db0.version + 1 }).version + 1 }
      = { createStoreUpgrade (nextParamsOf params (db0.version + 1))
            { db0 with version := db0.version + 1 } with
          version := (createStoreUpgrade (nextParamsOf params (db0.version + 1))
            { db0 with version := db0.version + 1 }).version + 1 } :=
    createStoreUpgrade_noop _ _ (createStoreUpgrade_any _ _)
  refine ⟨createStoreUpgrade (nextParamsOf params (db0.version + 1))
      { db0 with version := db0.version + 1 },
    { createStoreUpgrade (nextParamsOf params (db0.version + 1))
        { db0 with version := db0.version + 1 } with
      version := (createStoreUpgrade (nextParamsOf params (db0.version + 1))
        { db0 with version := db0.version + 1 }).version + 1 },
    hc1, hsettle1, hver1, createStoreUpgrade_count _ _ hcount, ?_, hsettle2, ?_, rfl, ?_⟩
  · rw [hcache2, hnoop]
    exact mapGet_mapSet_same _ _ _
  · show (createStoreUpgrade (nextParamsOf params (db0.version + 1))
      { db0 with version := db0.version + 1 }).version + 1 = db0.version + 2
    rw [hver1]
  · exact createStoreUpgrade_count _ _ hcount

/-- Witness for C8 at concrete inputs: name `todo` cached at version 1 with
no collections; two `createStore` calls for collection `items` drive the
version to 2 then 3 with exactly one `items` collection throughout. -/
theorem c8_witness :
    paramsTodo.name ≠ "" ∧ paramsTodo.version = none ∧
    mapGet cacheTodo "todo" = some dbTodo ∧ dbTodo.version ≠ 0 ∧
    countStore dbTodo.stores "items" ≤ 1 ∧
    (∃ db1 db2,
      mapGet (cacheAfter cacheTodo
          (createStoreTrace cacheTodo paramsTodo {} (.erroredD "x") (happyAt dbTodo) true)) "todo"
        = some db1 ∧
      settleOfActs (createStoreTrace cacheTodo paramsTodo {} (.erroredD "x") (happyAt dbTodo) true)
        = .resolved () ∧
      db1.version = dbTodo.version + 1 ∧
      countStore db1.stores "items" = 1 ∧
      mapGet (cacheAfter
          (cacheAfter cacheTodo (createStoreTrace cacheTodo paramsTodo {} (.erroredD "x") (happyAt dbTodo) true))
          (createStoreTrace
            (cacheAfter cacheTodo (createStoreTrace cacheTodo paramsTodo {} (.erroredD "x") (happyAt dbTodo) true))
            paramsTodo {} (.erroredD "x") (happyAt db1) true)) "todo"
        = some db2 ∧
      settleOfActs (createStoreTrace
          (cacheAfter cacheTodo (createStoreTrace cacheTodo paramsTodo {} (.erroredD "x") (happyAt dbTodo) true))
          paramsTodo {} (.erroredD "x") (happyAt db1) true)
        = .resolved () ∧
      db2.version = dbTodo.version + 2 ∧
      db2.stores = db1.stores ∧
      countStore db2.stores "items" = 1) :=
  ⟨by decide, rfl, rfl, by decide, by decide,
    c8_idempotent_store_creation cacheTodo paramsTodo {} (.erroredD "x") dbTodo
      (by decide) rfl rfl (by decide) (by decide)⟩
